import Mathlib

/-!
Shallow embedding of the MaxClient messaging core (`src/app.py`), together with
proofs settling the specification claims about it.

Python dicts are modelled as insertion-ordered association lists (`dLookup`,
`dSet`), Python exceptions as `Except String`, and the backend / HTTP side as an
oracle structure `Backend` whose fields answer each outgoing call.  Each `App`
method that the claims mention is translated into a Lean function over an
explicit `AppState`, additionally returning the list of backend calls it issued
and (for the event handler) the notifications delivered to the UI.
-/

namespace MaxClient

/-- A chat message, modelling the Python message dict.  The fields the core
reads are `id`, `sender` and `time`; each is optional because the dict may lack
the key (Python `msg.get(...)` returns `None`, and `msg[...]` raises).  `extra`
stands for the remaining payload (text, attachments, ...), so two messages with
equal keyed fields can still be different objects. -/
structure Msg where
  id : Option Int := none
  sender : Option Int := none
  time : Option Int := none
  extra : Nat := 0
deriving DecidableEq, Repr

/-- A contact profile, as stored in `state['profiles']`. -/
structure Profile where
  id : Option Int := none
  extra : Nat := 0
deriving DecidableEq, Repr

/-- The numeric value of an ASCII digit character. -/
def digitVal (c : Char) : Option Nat :=
  if '0' ≤ c ∧ c ≤ '9' then some (c.toNat - '0'.toNat) else none

/-- Accumulates the decimal value of a digit string; fails on a non-digit. -/
def parseDigitsAux : List Char → Nat → Option Nat
  | [], acc => some acc
  | c :: rest, acc =>
    match digitVal c with
    | some d => parseDigitsAux rest (acc * 10 + d)
    | none => none

/-- Models Python `int(s)` for the canonical decimal strings this code passes
it: an optional leading minus followed by ASCII digits; anything else raises
`ValueError`, modelled as `none`. -/
def pyInt? (s : String) : Option Int :=
  match s.toList with
  | [] => none
  | '-' :: rest =>
    match rest with
    | [] => none
    | _ => (parseDigitsAux rest 0).map (fun n => -(n : Int))
  | l => (parseDigitsAux l 0).map (fun n => (n : Int))

/-- Splitting a character list on a separator; `[]` splits to `[[]]`, matching
Python `''.split(sep) == ['']`. -/
def splitOnChar (sep : Char) : List Char → List (List Char)
  | [] => [[]]
  | c :: rest =>
    let r := splitOnChar sep rest
    if c = sep then [] :: r
    else
      match r with
      | [] => [[c]]
      | h :: t => (c :: h) :: t

/-- Models Python `s.split(sep)` for a one-character separator. -/
def splitString (sep : Char) (s : String) : List String :=
  (splitOnChar sep s.toList).map String.mk

/-- ASCII lower-casing of one character. -/
def lowerChar (c : Char) : Char :=
  if 'A' ≤ c ∧ c ≤ 'Z' then Char.ofNat (c.toNat + 32) else c

/-- ASCII lower-casing, as `mimetypes` applies to extensions. -/
def lowerString (s : String) : String :=
  String.mk (s.toList.map lowerChar)

/-- Lookup in a Python dict modelled as an association list. -/
def dLookup {κ α : Type} [DecidableEq κ] : List (κ × α) → κ → Option α
  | [], _ => none
  | p :: d, k => if p.1 = k then some p.2 else dLookup d k

/-- `d.get(k, v₀)` on a Python dict. -/
def dGetD {κ α : Type} [DecidableEq κ] (d : List (κ × α)) (k : κ) (v₀ : α) : α :=
  (dLookup d k).getD v₀

/-- `d[k] = v` on a Python dict: replaces the value in place if the key exists
(keeping its position), otherwise appends the new entry at the end, matching
insertion-ordered dict semantics. -/
def dSet {κ α : Type} [DecidableEq κ] : List (κ × α) → κ → α → List (κ × α)
  | [], k, v => [(k, v)]
  | p :: d, k, v => if p.1 = k then (k, v) :: d else p :: dSet d k v

/-- The key list of a dict. -/
def dKeys {κ α : Type} (d : List (κ × α)) : List κ :=
  d.map Prod.fst

/-- The mutable application state `self.state` (src/app.py:25-31).  `chat` is
the active-chat pointer, `messages` maps chat-id strings to message logs,
`profiles` maps user-id strings to cached profiles. -/
structure AppState where
  chat : Option String := none
  messages : List (String × List Msg) := []
  profiles : List (String × Profile) := []
deriving DecidableEq, Repr

/-- One outgoing call to the backend messaging client (or, for `httpGet`, to
`requests.get`), recorded so that theorems can count and inspect the calls an
operation issued. -/
inductive Call : Type
  | getHistory (chatId : Int) (count : Nat) (fromTs : Option Int)
  | markRead (chatId : Int) (messageId : String)
  | getContacts (ids : List Int)
  | sendMessage (chatId : Int) (text : String)
  | getVideo (videoId : Option String)
  | getFile (fileId : Option String) (chatId : String) (messageId : String)
  | httpGet (url : String)
deriving DecidableEq, Repr

/-- The backend oracle: one field per external call the core makes.  A call
that raises in Python is modelled by the oracle returning `.error`.  The
response-dict unwrapping the code performs (`resp.get('payload', {}).get(...)`)
is folded into the oracle's result type. -/
structure Backend where
  get_history : Int → Nat → Option Int → Except String (List Msg)
  mark_as_read : Int → String → Except String Unit
  get_contact_details : List Int → Except String (List Profile)
  send_message : Int → String → Except String (Option Msg)
  get_video : Option String → Except String (List Nat)
  get_file : Option String → String → String → Except String (List Nat × String)
  http_get : String → Except String (List Nat)

/-- A websocket push event: `event.get('opcode')` and
`event.get('payload', {})` with its `chatId` and `message` entries.  A missing
or empty (hence falsy) `message` dict is modelled as `none`. -/
structure Event where
  opcode : Option Int := none
  chatId : Option Int := none
  message : Option Msg := none
deriving DecidableEq, Repr

/-- `msg['id']`: raises `KeyError` when the key is absent. -/
def getIdExc (m : Msg) : Except String Int :=
  match m.id with
  | some i => .ok i
  | none => .error "KeyError: id"

/-- Models `any(msg['id'] == message_data['id'] for msg in messages)`
(src/app.py:67) with Python's left-to-right evaluation and short-circuiting:
each `msg['id']` (and then `message_data['id']`) may raise, and nothing is
evaluated when the log is empty. -/
def anyIdEq (target : Msg) : List Msg → Except String Bool
  | [] => .ok false
  | m :: rest => do
    let mi ← getIdExc m
    let ti ← getIdExc target
    if mi = ti then pure true else anyIdEq target rest

/-- `App._handle_event` (src/app.py:55-73).  Returns the new state and the
list of chat ids passed to `ui.handle_new_message`, or the uncaught exception
(the handler has no try/except).  On every raising path the state is
unchanged: `setdefault` only inserts an empty log when the key is absent, and
in that case the duplicate scan runs over `[]` and cannot raise. -/
def handle_event (ui : Bool) (st : AppState) (ev : Event) :
    Except String (AppState × List Int) :=
  if ev.opcode = some 128 then
    match ev.chatId, ev.message with
    | some c, some md =>
      if c = 0 then .ok (st, []) else   -- `if chat_id and message_data:` — 0 is falsy
        let key := toString c           -- chat_id_str = str(chat_id)
        let msgs := dGetD st.messages key []
        match anyIdEq md msgs with
        | .error e => .error e
        | .ok dup =>
          let st' := if dup then st
            else { st with messages := dSet st.messages key (msgs ++ [md]) }
          .ok (st', if ui then [c] else [])
    | _, _ => .ok (st, [])              -- missing chatId or message: dropped
  else .ok (st, [])                     -- unhandled opcode: logged only

/-- The distinct sender ids referenced by `messages` whose profile is not yet
cached, modelling the set comprehension in
`App._fetch_and_cache_profiles_for_messages` (src/app.py:89-93).  The cache is
keyed by `str(sender)`; `int(str(sender))` round-trips, so the model keeps the
ids as integers.  Python set iteration order is unspecified; this model
enumerates the set in order of each sender's last occurrence (the claims only
constrain the set). -/
def uncachedSenders (profiles : List (String × Profile)) (msgs : List Msg) : List Int :=
  ((msgs.filterMap (·.sender)).filter (fun s => dLookup profiles (toString s) = none)).dedup

/-- `str(profile.get('id'))`, the key under which a fetched profile is stored
(src/app.py:105): Python renders a missing id as the string "None". -/
def profileKey (p : Profile) : String :=
  match p.id with
  | some i => toString i
  | none => "None"

/-- `App._fetch_and_cache_profiles_for_messages` (src/app.py:82-110).  Returns
the updated state and the backend calls issued; its internal try/except means
it never raises, and a failed batch leaves the cache untouched. -/
def fetch_and_cache_profiles (api : Option Backend) (st : AppState) (msgs : List Msg) :
    AppState × List Call :=
  match api with
  | none => (st, [])
  | some be =>
    let ids := uncachedSenders st.profiles msgs
    if ids = [] then (st, [])
    else
      match be.get_contact_details ids with
      | .ok ps =>
        ({ st with profiles := ps.foldl (fun d p => dSet d (profileKey p) p) st.profiles },
          [Call.getContacts ids])
      | .error _ => (st, [Call.getContacts ids])

/-- `m.get('id', 0)`, the sort key used in `App.nav_chat` (src/app.py:176). -/
def idKey (m : Msg) : Int :=
  m.id.getD 0

/-- The order the merge sorts by: non-decreasing `m.get('id', 0)`. -/
def msgRel (a b : Msg) : Prop :=
  idKey a ≤ idKey b

instance : DecidableRel msgRel := fun a b => by
  unfold msgRel; infer_instance

instance : IsTotal Msg msgRel :=
  ⟨fun a b => Int.le_total (idKey a) (idKey b)⟩

instance : IsTrans Msg msgRel :=
  ⟨fun _ _ _ h₁ h₂ => le_trans h₁ h₂⟩

/-- Strict version of `msgRel`; a log pairwise in `msgLt` is exactly one that
is sorted ascending by id with no duplicate ids. -/
def msgLt (a b : Msg) : Prop :=
  idKey a < idKey b

instance : IsAntisymm Msg msgLt :=
  ⟨fun _ _ h₁ h₂ => absurd (lt_trans h₁ h₂) (lt_irrefl _)⟩

instance : DecidableRel msgLt := fun a b => by
  unfold msgLt; infer_instance

/-- `{msg['id']: msg for msg in msgs}` built on top of dict `d`; `msg['id']`
raises when a message lacks the key (src/app.py:173-174). -/
def buildMsgDict : List Msg → List (Int × Msg) → Except String (List (Int × Msg))
  | [], d => .ok d
  | m :: rest, d =>
    match m.id with
    | none => .error "KeyError: id"
    | some i => buildMsgDict rest (dSet d i m)

/-- The merge performed by `App.nav_chat` (src/app.py:172-176): build an
id-keyed dict from the existing log, overlay the incoming messages
(`dict.update`, incoming wins on collision), and sort the values by
`m.get('id', 0)`.  Python's `sorted` is a stable sort and is modelled by the
stable `List.insertionSort`; the dict's values have pairwise-distinct sort keys
here, so any correct sort produces the same list. -/
def merge_messages (existing incoming : List Msg) : Except String (List Msg) := do
  let d₁ ← buildMsgDict existing []
  let d₂ ← buildMsgDict incoming []
  let d := d₂.foldl (fun d p => dSet d p.1 p.2) d₁
  pure (List.insertionSort msgRel (d.map Prod.snd))

/-- `App.nav_chat` (src/app.py:160-187).  Returns (success, state, calls).
`self.state['chat'] = chat_id` happens before the fetch, so a backend failure
leaves the pointer already moved; every exception in the body is caught and
turned into `False`. -/
def nav_chat (api : Option Backend) (st : AppState) (chat_id : String) :
    Bool × AppState × List Call :=
  match api with
  | none => (false, st, [])
  | some be =>
    let st := { st with chat := some chat_id }
    match pyInt? chat_id with
    | none => (false, st, [])           -- int(chat_id) raised; caught
    | some cid =>
      let c₁ := Call.getHistory cid 50 none
      match be.get_history cid 50 none with
      | .error _ => (false, st, [c₁])
      | .ok new_messages =>
        let stp := (fetch_and_cache_profiles (some be) st new_messages).1
        let pc := (fetch_and_cache_profiles (some be) st new_messages).2
        -- _process_msg is the identity (src/app.py:75-80)
        let existing := dGetD stp.messages chat_id []
        match merge_messages existing new_messages with
        | .error _ => (false, stp, c₁ :: pc)
        | .ok merged =>
          let stm := { stp with messages := dSet stp.messages chat_id merged }
          match new_messages.getLast? with
          | none => (true, stm, c₁ :: pc)          -- `if new_messages:` fails
          | some last =>
            match last.id with
            | none => (true, stm, c₁ :: pc)        -- .get('id') is None, falsy
            | some lid =>
              if lid = 0 then (true, stm, c₁ :: pc)  -- 0 is falsy
              else
                let c₂ := Call.markRead cid (toString lid)
                match be.mark_as_read cid (toString lid) with
                | .ok _ => (true, stm, c₁ :: pc ++ [c₂])
                | .error _ => (false, stm, c₁ :: pc ++ [c₂])

/-- `App.load_more_messages` (src/app.py:189-210).  Returns (returned
messages, state, calls).  Note that when the fetched page makes progress it is
prepended verbatim — `older_messages + messages` — with no deduplication
against the existing log and no re-sort. -/
def load_more_messages (api : Option Backend) (st : AppState) (chat_id : String) :
    List Msg × AppState × List Call :=
  match api with
  | none => ([], st, [])
  | some be =>
    match dGetD st.messages chat_id [] with
    | [] => ([], st, [])
    | m₀ :: rest =>
      let messages := m₀ :: rest
      let anchor := m₀.time             -- messages[0].get('time')
      match pyInt? chat_id with
      | none => ([], st, [])
      | some cid =>
        let c₁ := Call.getHistory cid 50 anchor
        match be.get_history cid 50 anchor with
        | .error _ => ([], st, [c₁])
        | .ok older =>
          match older with
          | [] => ([], st, [c₁])
          | o₀ :: _ =>
            if o₀.time = anchor then ([], st, [c₁])
            else
              let stp := (fetch_and_cache_profiles (some be) st older).1
              let pc := (fetch_and_cache_profiles (some be) st older).2
              (older,
                { stp with messages := dSet stp.messages chat_id (older ++ messages) },
                c₁ :: pc)

/-- `App.send` (src/app.py:144-158).  Returns (result, state, calls).  An empty
active-chat string is falsy, like `None`; the echoed message is appended at
the end of the log with no deduplication and no re-sort. -/
def send (api : Option Backend) (st : AppState) (text : String) :
    Option Msg × AppState × List Call :=
  match st.chat with
  | none => (none, st, [])
  | some c =>
    if c = "" then (none, st, [])
    else
      match api with
      | none => (none, st, [])
      | some be =>
        match pyInt? c with
        | none => (none, st, [])        -- int(chat_id) raised; caught
        | some cid =>
          let c₁ := Call.sendMessage cid text
          match be.send_message cid text with
          | .error _ => (none, st, [c₁])
          | .ok none => (none, st, [c₁])
          | .ok (some m) =>
            let msgs := dGetD st.messages c []
            (some m, { st with messages := dSet st.messages c (msgs ++ [m]) }, [c₁])

/-- An attachment descriptor dict (`attach_info`): the fields the gateway
reads, each optional because `attach_info.get(...)` may return `None`. -/
structure AttachInfo where
  variantType : Option String := none   -- attach_info.get('_type')
  baseUrl : Option String := none
  videoId : Option String := none
  fileId : Option String := none
deriving DecidableEq, Repr

/-- The dict returned by `App.get_attachment_data_uri` on success. -/
structure AttachPayload where
  data_uri : String
  filename : String
deriving DecidableEq, Repr

/-- The standard base64 alphabet. -/
def base64Chars : List Char :=
  "ABCDEFGHIJKLMNOPQRSTUVWXYZabcdefghijklmnopqrstuvwxyz0123456789+/".toList

/-- The base64 digit for a sextet. -/
def b64digit (n : Nat) : Char :=
  base64Chars.getD n 'A'

/-- `base64.b64encode(bytes).decode('utf-8')` over a byte list (each entry
taken mod 256), including `=` padding. -/
def base64Encode : List Nat → String
  | [] => ""
  | [a] =>
    let v := a % 256 * 65536
    String.mk [b64digit (v / 262144), b64digit (v / 4096 % 64)] ++ "=="
  | [a, b] =>
    let v := a % 256 * 65536 + b % 256 * 256
    String.mk [b64digit (v / 262144), b64digit (v / 4096 % 64), b64digit (v / 64 % 64)] ++ "="
  | a :: b :: c :: rest =>
    let v := a % 256 * 65536 + b % 256 * 256 + c % 256
    String.mk [b64digit (v / 262144), b64digit (v / 4096 % 64), b64digit (v / 64 % 64),
      b64digit (v % 64)] ++ base64Encode rest

/-- Models Python `mimetypes.guess_type` for the extensions exercised by this
code: the type is chosen by the lowercased suffix after the last dot, `none`
when there is no extension or the extension is unknown. -/
def guess_type (filename : String) : Option String :=
  let parts := splitString '.' filename
  if parts.length ≤ 1 then none
  else
    match lowerString (parts.getLastD "") with
    | "pdf" => some "application/pdf"
    | "jpg" => some "image/jpeg"
    | "jpeg" => some "image/jpeg"
    | "png" => some "image/png"
    | "gif" => some "image/gif"
    | "mp4" => some "video/mp4"
    | "txt" => some "text/plain"
    | _ => none

/-- The tail of `App.get_attachment_data_uri`: `if file_content:` (empty bytes
are falsy) then build the data-URI dict (src/app.py:254-259). -/
def finishAttachment (content : List Nat) (mime filename : String) (calls : List Call) :
    Option AttachPayload × List Call :=
  if content = [] then (none, calls)
  else (some ⟨"data:" ++ mime ++ ";base64," ++ base64Encode content, filename⟩, calls)

/-- `App.get_attachment_data_uri` (src/app.py:229-263).  Every exception in
the body is caught and turned into `None`, so the model is total; the call
list records the downloads attempted.  `requests.get(None)` always raises, so
a PHOTO descriptor without `baseUrl` yields `none` before any call. -/
def get_attachment_data_uri (api : Option Backend) (chat_id message_id : String)
    (info : AttachInfo) : Option AttachPayload × List Call :=
  match api with
  | none => (none, [])
  | some be =>
    match info.variantType with
    | some "PHOTO" =>
      match info.baseUrl with
      | none => (none, [])
      | some u =>
        match be.http_get u with
        | .error _ => (none, [Call.httpGet u])
        | .ok content =>
          let filename := if u = "" then "photo.jpg" else (splitString '/' u).getLastD "photo.jpg"
          finishAttachment content "image/jpeg" filename [Call.httpGet u]
    | some "VIDEO" =>
      match be.get_video info.videoId with
      | .error _ => (none, [Call.getVideo info.videoId])
      | .ok content =>
        finishAttachment content "video/mp4" ((info.videoId.getD "video") ++ ".mp4")
          [Call.getVideo info.videoId]
    | some "FILE" =>
      match be.get_file info.fileId chat_id message_id with
      | .error _ => (none, [Call.getFile info.fileId chat_id message_id])
      | .ok (content, filename) =>
        finishAttachment content ((guess_type filename).getD "application/octet-stream")
          filename [Call.getFile info.fileId chat_id message_id]
    | _ => (none, [])

/-- A message dict is well-formed when its keys are distinct and every entry is
keyed by its message's own id (which `{msg['id']: msg for ...}` guarantees). -/
def WfMsgDict (d : List (Int × Msg)) : Prop :=
  (dKeys d).Nodup ∧ ∀ p ∈ d, p.2.id = some p.1

/-- Recognizes mark-as-read calls in a call trace. -/
def isMarkRead : Call → Bool
  | .markRead _ _ => true
  | _ => false

/-! ### Concrete oracles and states used to instantiate the theorems -/

/-- A backend whose every call fails with a transport error. -/
def beFail : Backend where
  get_history := fun _ _ _ => .error "TransportError"
  mark_as_read := fun _ _ => .error "TransportError"
  get_contact_details := fun _ => .error "TransportError"
  send_message := fun _ _ => .error "TransportError"
  get_video := fun _ => .error "TransportError"
  get_file := fun _ _ _ => .error "TransportError"
  http_get := fun _ => .error "TransportError"

/-- The spec's navigation scenario page: messages `[10, 11, 12]`. -/
def scenarioPage : List Msg :=
  [{ id := some 10 }, { id := some 11 }, { id := some 12 }]

/-- Backend for the navigation scenario: chat 42 has history `[10, 11, 12]`
and accepts mark-as-read. -/
def beScenario : Backend :=
  { beFail with
    get_history := fun cid _ _ => if cid = 42 then .ok scenarioPage else .error "TransportError"
    mark_as_read := fun _ _ => .ok () }

/-- Backend whose history page is a single message with id 0. -/
def beZeroId : Backend :=
  { beFail with get_history := fun _ _ _ => .ok [{ id := some 0 }] }

/-- Backend whose history page is `[{id 5, time 50}]`: same id as the stored
log used against it, but an older time, so `load_more_messages` treats it as
progress. -/
def beOverlap : Backend :=
  { beFail with get_history := fun _ _ _ => .ok [{ id := some 5, time := some 50 }] }

/-- Backend whose history page is `[{id 1, time 50}]`. -/
def beOlderPage : Backend :=
  { beFail with get_history := fun _ _ _ => .ok [{ id := some 1, time := some 50 }] }

/-- Backend whose history page starts at time 1000 — the same anchor as the
stored log used against it (no progress). -/
def beAnchor : Backend :=
  { beFail with get_history := fun _ _ _ => .ok [{ id := some 19, time := some 1000 }] }

/-- Backend that answers the contact lookup for exactly the id set `[2]`. -/
def beContacts : Backend :=
  { beFail with
    get_contact_details := fun ids =>
      if ids = [2] then .ok [{ id := some 2 }] else .error "TransportError" }

/-- Backend whose file lookup yields the bytes of `%PDF` with filename
`report.pdf`. -/
def beFilePdf : Backend :=
  { beFail with
    get_file := fun fid _ _ =>
      if fid = some "abc" then .ok ([37, 80, 68, 70], "report.pdf")
      else .error "TransportError" }

/-- Backend that echoes a sent message with id 5. -/
def beEcho : Backend :=
  { beFail with send_message := fun _ _ => .ok (some { id := some 5, extra := 2 }) }

/-! ### Dictionary lemmas -/

theorem dLookup_nil {κ α : Type} [DecidableEq κ] (k : κ) :
    dLookup ([] : List (κ × α)) k = none := rfl

theorem dLookup_cons {κ α : Type} [DecidableEq κ] (p : κ × α) (d : List (κ × α)) (k : κ) :
    dLookup (p :: d) k = if p.1 = k then some p.2 else dLookup d k := rfl

theorem dSet_nil {κ α : Type} [DecidableEq κ] (k : κ) (v : α) :
    dSet ([] : List (κ × α)) k v = [(k, v)] := rfl

theorem dSet_cons {κ α : Type} [DecidableEq κ] (p : κ × α) (d : List (κ × α)) (k : κ) (v : α) :
    dSet (p :: d) k v = if p.1 = k then (k, v) :: d else p :: dSet d k v := rfl

theorem dKeys_nil {κ α : Type} : dKeys ([] : List (κ × α)) = [] := rfl

theorem dKeys_cons {κ α : Type} (p : κ × α) (d : List (κ × α)) :
    dKeys (p :: d) = p.1 :: dKeys d := rfl

theorem dLookup_eq_none_iff {κ α : Type} [DecidableEq κ] (d : List (κ × α)) (k : κ) :
    dLookup d k = none ↔ k ∉ dKeys d := by
  induction d with
  | nil => simp [dLookup_nil, dKeys_nil]
  | cons p d ih =>
    rw [dLookup_cons, dKeys_cons]
    by_cases h : p.1 = k
    · simp [h]
    · have h' : ¬ k = p.1 := fun hk => h hk.symm
      simp [h, h', ih]

theorem dLookup_dSet {κ α : Type} [DecidableEq κ] (d : List (κ × α)) (k k' : κ) (v : α) :
    dLookup (dSet d k v) k' = if k' = k then some v else dLookup d k' := by
  induction d with
  | nil =>
    rw [dSet_nil, dLookup_cons, dLookup_nil]
    by_cases h : k = k'
    · simp [h]
    · rw [if_neg h, if_neg (fun hk : k' = k => h hk.symm)]
  | cons p d ih =>
    rw [dSet_cons]
    by_cases hp : p.1 = k
    · subst hp
      rw [if_pos rfl, dLookup_cons, dLookup_cons]
      by_cases h : p.1 = k'
      · simp [h, if_pos h.symm]
      · simp only [if_neg h, if_neg (fun hk : k' = p.1 => h hk.symm)]
    · rw [if_neg hp, dLookup_cons, ih, dLookup_cons]
      by_cases h : k' = k
      · subst h
        simp [hp]
      · simp [h]

theorem dKeys_dSet {κ α : Type} [DecidableEq κ] (d : List (κ × α)) (k : κ) (v : α) :
    dKeys (dSet d k v) = if k ∈ dKeys d then dKeys d else dKeys d ++ [k] := by
  induction d with
  | nil => simp [dSet_nil, dKeys_nil, dKeys_cons]
  | cons p d ih =>
    rw [dSet_cons]
    by_cases hp : p.1 = k
    · subst hp
      simp [dKeys_cons]
    · have hne : ¬ k = p.1 := fun hk => hp hk.symm
      rw [if_neg hp, dKeys_cons, ih, dKeys_cons]
      by_cases hm : k ∈ dKeys d
      · simp [hm, hne]
      · simp [hm, hne]

theorem dKeys_nodup_dSet {κ α : Type} [DecidableEq κ] {d : List (κ × α)} (k : κ) (v : α)
    (h : (dKeys d).Nodup) : (dKeys (dSet d k v)).Nodup := by
  rw [dKeys_dSet]
  by_cases hk : k ∈ dKeys d
  · simpa [hk] using h
  · rw [if_neg hk]
    refine List.Nodup.append h (List.nodup_singleton k) ?_
    simpa [List.disjoint_singleton] using hk

theorem mem_dSet {κ α : Type} [DecidableEq κ] {d : List (κ × α)} {k : κ} {v : α}
    {p : κ × α} (h : p ∈ dSet d k v) : p = (k, v) ∨ p ∈ d := by
  induction d with
  | nil =>
    rw [dSet_nil] at h
    simpa using h
  | cons q d ih =>
    rw [dSet_cons] at h
    by_cases hq : q.1 = k
    · rw [if_pos hq] at h
      rcases List.mem_cons.mp h with h' | h'
      · exact Or.inl h'
      · exact Or.inr (List.mem_cons.mpr (Or.inr h'))
    · rw [if_neg hq] at h
      rcases List.mem_cons.mp h with h' | h'
      · exact Or.inr (List.mem_cons.mpr (Or.inl h'))
      · rcases ih h' with h'' | h''
        · exact Or.inl h''
        · exact Or.inr (List.mem_cons.mpr (Or.inr h''))

theorem dSet_eq_of_lookup {κ α : Type} [DecidableEq κ] {d : List (κ × α)} {k : κ} {v : α}
    (h : dLookup d k = some v) : dSet d k v = d := by
  induction d with
  | nil => simp [dLookup_nil] at h
  | cons p d ih =>
    rw [dLookup_cons] at h
    rw [dSet_cons]
    by_cases hp : p.1 = k
    · rw [if_pos hp] at h
      rw [if_pos hp]
      obtain rfl : p.2 = v := by simpa using h
      rw [← hp]
    · rw [if_neg hp] at h
      rw [if_neg hp, ih h]

theorem mem_iff_dLookup {κ α : Type} [DecidableEq κ] {d : List (κ × α)}
    (hnd : (dKeys d).Nodup) (k : κ) (v : α) : (k, v) ∈ d ↔ dLookup d k = some v := by
  induction d with
  | nil => simp [dLookup_nil]
  | cons p d ih =>
    rw [dKeys_cons, List.nodup_cons] at hnd
    rw [dLookup_cons, List.mem_cons]
    by_cases hp : p.1 = k
    · subst hp
      rw [if_pos rfl]
      constructor
      · rintro (h | h)
        · rw [← h]
        · exact absurd (by exact List.mem_map.mpr ⟨(p.1, v), h, rfl⟩) hnd.1
      · intro h
        exact Or.inl (by rw [Option.some_inj] at h; rw [← h])
    · rw [if_neg hp, ← ih hnd.2]
      constructor
      · rintro (h | h)
        · exact absurd (congrArg Prod.fst h).symm hp
        · exact h
      · exact Or.inr

theorem dSet_eq_append {κ α : Type} [DecidableEq κ] {d : List (κ × α)} {k : κ} (v : α)
    (h : k ∉ dKeys d) : dSet d k v = d ++ [(k, v)] := by
  induction d with
  | nil => simp [dSet_nil]
  | cons p d ih =>
    rw [dKeys_cons, List.mem_cons] at h
    push_neg at h
    rw [dSet_cons, if_neg (fun hp => h.1 hp.symm), ih h.2]
    rfl

/-! ### Folding `dSet` over a list of keyed values -/

theorem dLookup_foldl_dSet_of_not_mem {κ α β : Type} [DecidableEq κ]
    (key : β → κ) (val : β → α) (l : List β) (d₀ : List (κ × α)) (k : κ)
    (h : k ∉ l.map key) :
    dLookup (l.foldl (fun d x => dSet d (key x) (val x)) d₀) k = dLookup d₀ k := by
  induction l generalizing d₀ with
  | nil => rfl
  | cons x l ih =>
    rw [List.map_cons, List.mem_cons] at h
    push_neg at h
    rw [List.foldl_cons, ih _ h.2, dLookup_dSet, if_neg (fun hk => h.1 hk)]

theorem dLookup_foldl_dSet_self {κ α β : Type} [DecidableEq κ]
    (key : β → κ) (val : β → α) (l : List β) (d₀ : List (κ × α))
    (hnd : (l.map key).Nodup) :
    ∀ x ∈ l, dLookup (l.foldl (fun d x => dSet d (key x) (val x)) d₀) (key x) = some (val x) := by
  induction l generalizing d₀ with
  | nil => intro x hx; simp at hx
  | cons y l ih =>
    rw [List.map_cons, List.nodup_cons] at hnd
    intro x hx
    rcases List.mem_cons.mp hx with rfl | hx
    · rw [List.foldl_cons, dLookup_foldl_dSet_of_not_mem _ _ _ _ _ hnd.1,
        dLookup_dSet, if_pos rfl]
    · exact ih _ hnd.2 x hx

theorem foldl_dSet_no_op {κ α β : Type} [DecidableEq κ]
    (key : β → κ) (val : β → α) (l : List β) (d₀ : List (κ × α))
    (h : ∀ x ∈ l, dLookup d₀ (key x) = some (val x)) :
    l.foldl (fun d x => dSet d (key x) (val x)) d₀ = d₀ := by
  induction l with
  | nil => rfl
  | cons x l ih =>
    rw [List.foldl_cons, dSet_eq_of_lookup (h x (List.mem_cons_self x l))]
    exact ih fun y hy => h y (List.mem_cons.mpr (Or.inr hy))

theorem dKeys_nodup_foldl_dSet {κ α β : Type} [DecidableEq κ]
    (key : β → κ) (val : β → α) (l : List β) (d₀ : List (κ × α))
    (h : (dKeys d₀).Nodup) :
    (dKeys (l.foldl (fun d x => dSet d (key x) (val x)) d₀)).Nodup := by
  induction l generalizing d₀ with
  | nil => exact h
  | cons x l ih => exact ih _ (dKeys_nodup_dSet _ _ h)

theorem mem_foldl_dSet {κ α β : Type} [DecidableEq κ]
    (key : β → κ) (val : β → α) (l : List β) (d₀ : List (κ × α))
    {p : κ × α} (h : p ∈ l.foldl (fun d x => dSet d (key x) (val x)) d₀) :
    p ∈ d₀ ∨ ∃ x ∈ l, p = (key x, val x) := by
  induction l generalizing d₀ with
  | nil => exact Or.inl h
  | cons y l ih =>
    rw [List.foldl_cons] at h
    rcases ih _ h with h' | ⟨x, hx, rfl⟩
    · rcases mem_dSet h' with h'' | h''
      · exact Or.inr ⟨y, List.mem_cons_self y l, h''⟩
      · exact Or.inl h''
    · exact Or.inr ⟨x, List.mem_cons.mpr (Or.inr hx), rfl⟩

/-! ### The `nav_chat` merge: well-formed dictionaries and sortedness -/

theorem buildMsgDict_wf : ∀ (msgs : List Msg) (d d' : List (Int × Msg)),
    WfMsgDict d → buildMsgDict msgs d = .ok d' → WfMsgDict d'
  | [], _, _, hwf, h => by
    rw [buildMsgDict] at h
    cases h
    exact hwf
  | m :: rest, d, d', hwf, h => by
    rw [buildMsgDict] at h
    match hm : m.id with
    | none => rw [hm] at h; cases h
    | some i =>
      rw [hm] at h
      refine buildMsgDict_wf rest _ _ ⟨dKeys_nodup_dSet _ _ hwf.1, ?_⟩ h
      intro p hp
      rcases mem_dSet hp with rfl | hp'
      · exact hm
      · exact hwf.2 p hp'

theorem buildMsgDict_isOk : ∀ (msgs : List Msg) (d : List (Int × Msg)),
    (∀ m ∈ msgs, m.id ≠ none) → ∃ d', buildMsgDict msgs d = .ok d'
  | [], d, _ => ⟨d, rfl⟩
  | m :: rest, d, h => by
    rw [buildMsgDict]
    match hm : m.id with
    | none => exact absurd hm (h m (List.mem_cons_self m rest))
    | some i =>
      exact buildMsgDict_isOk rest _ fun m' hm' => h m' (List.mem_cons.mpr (Or.inr hm'))

theorem buildMsgDict_eq_append : ∀ (msgs : List Msg) (d₀ : List (Int × Msg)),
    (∀ m ∈ msgs, m.id = some (idKey m)) → (msgs.map idKey).Nodup →
    (∀ m ∈ msgs, idKey m ∉ dKeys d₀) →
    buildMsgDict msgs d₀ = .ok (d₀ ++ msgs.map (fun m => (idKey m, m)))
  | [], d₀, _, _, _ => by simp [buildMsgDict]
  | m :: rest, d₀, hid, hnd, hdisj => by
    rw [buildMsgDict, hid m (List.mem_cons_self m rest)]
    show buildMsgDict rest (dSet d₀ (idKey m) m) = _
    rw [dSet_eq_append m (hdisj m (List.mem_cons_self m rest))]
    rw [List.map_cons, List.nodup_cons] at hnd
    rw [buildMsgDict_eq_append rest _ (fun x hx => hid x (List.mem_cons.mpr (Or.inr hx)))
      hnd.2 ?_]
    · simp
    · intro x hx
      have hkeys : dKeys (d₀ ++ [(idKey m, m)]) = dKeys d₀ ++ [idKey m] := by
        simp [dKeys]
      rw [hkeys]
      intro hmem
      rcases List.mem_append.mp hmem with h' | h'
      · exact hdisj x (List.mem_cons.mpr (Or.inr hx)) h'
      · have hxm : idKey x = idKey m := List.mem_singleton.mp h'
        exact hnd.1 (hxm ▸ List.mem_map_of_mem idKey hx)

/-- The dict built by the `nav_chat` merge (existing overlaid with incoming)
is well-formed. -/
theorem overlay_wf {d₁ d₂ : List (Int × Msg)} (h₁ : WfMsgDict d₁) (h₂ : WfMsgDict d₂) :
    WfMsgDict (d₂.foldl (fun d p => dSet d p.1 p.2) d₁) := by
  constructor
  · exact dKeys_nodup_foldl_dSet Prod.fst Prod.snd d₂ d₁ h₁.1
  · intro p hp
    rcases mem_foldl_dSet Prod.fst Prod.snd d₂ d₁ hp with h' | ⟨x, hx, rfl⟩
    · exact h₁.2 p h'
    · exact h₂.2 x hx

theorem merge_messages_eq (E B L : List Msg) (h : merge_messages E B = .ok L) :
    ∃ d₁ d₂, buildMsgDict E [] = .ok d₁ ∧ buildMsgDict B [] = .ok d₂ ∧
      L = List.insertionSort msgRel
        ((d₂.foldl (fun d p => dSet d p.1 p.2) d₁).map Prod.snd) := by
  unfold merge_messages at h
  cases h₁ : buildMsgDict E [] with
  | error e => rw [h₁] at h; simp [Bind.bind, Except.bind] at h
  | ok d₁ =>
    rw [h₁] at h
    cases h₂ : buildMsgDict B [] with
    | error e => rw [h₂] at h; simp [Bind.bind, Except.bind] at h
    | ok d₂ =>
      rw [h₂] at h
      simp only [Bind.bind, Except.bind, Pure.pure, Except.pure, Except.ok.injEq] at h
      exact ⟨d₁, d₂, rfl, rfl, h.symm⟩

/-- Sorting the values of a well-formed message dict by `m.get('id', 0)` yields
a log strictly ascending by id, whose members all carry their id. -/
theorem sortedValues_of_wf (d : List (Int × Msg)) (hwf : WfMsgDict d) :
    (List.insertionSort msgRel (d.map Prod.snd)).Pairwise msgLt ∧
    ∀ m ∈ List.insertionSort msgRel (d.map Prod.snd), m.id = some (idKey m) := by
  have hperm : List.Perm (List.insertionSort msgRel (d.map Prod.snd)) (d.map Prod.snd) :=
    List.perm_insertionSort msgRel _
  have hsorted : (List.insertionSort msgRel (d.map Prod.snd)).Pairwise msgRel :=
    List.sorted_insertionSort msgRel _
  have hids : ∀ m ∈ List.insertionSort msgRel (d.map Prod.snd), m.id = some (idKey m) := by
    intro m hm
    rcases List.mem_map.mp (hperm.mem_iff.mp hm) with ⟨p, hp, rfl⟩
    have hp2 : p.2.id = some p.1 := hwf.2 p hp
    have hk : idKey p.2 = p.1 := by
      show p.2.id.getD 0 = p.1
      rw [hp2]
      rfl
    rw [hp2, hk]
  have hkeysmap : List.Perm ((List.insertionSort msgRel (d.map Prod.snd)).map idKey)
      (dKeys d) := by
    have hstep : (d.map Prod.snd).map idKey = dKeys d := by
      rw [List.map_map]
      exact List.map_congr_left (fun p hp => by
        have h2 : p.2.id = some p.1 := hwf.2 p hp
        show p.2.id.getD 0 = p.1
        rw [h2]
        rfl)
    rw [← hstep]
    exact hperm.map idKey
  have hnodup : ((List.insertionSort msgRel (d.map Prod.snd)).map idKey).Nodup :=
    (List.Perm.nodup_iff hkeysmap).mpr hwf.1
  have hnodup' : ((List.insertionSort msgRel (d.map Prod.snd)).map idKey).Pairwise (· ≠ ·) :=
    hnodup
  have hne : (List.insertionSort msgRel (d.map Prod.snd)).Pairwise
      (fun a b => idKey a ≠ idKey b) := List.pairwise_map.mp hnodup'
  exact ⟨(hsorted.and hne).imp (fun h => lt_of_le_of_ne h.1 h.2), hids⟩

theorem merge_messages_idem (E B L : List Msg) (h : merge_messages E B = .ok L) :
    merge_messages L B = .ok L := by
  obtain ⟨d₁, d₂, h₁, h₂, rfl⟩ := merge_messages_eq E B L h
  have hwf₁ : WfMsgDict d₁ := buildMsgDict_wf E [] d₁ ⟨List.nodup_nil, by simp⟩ h₁
  have hwf₂ : WfMsgDict d₂ := buildMsgDict_wf B [] d₂ ⟨List.nodup_nil, by simp⟩ h₂
  have hwf : WfMsgDict (d₂.foldl (fun d p => dSet d p.1 p.2) d₁) := overlay_wf hwf₁ hwf₂
  set d := d₂.foldl (fun d p => dSet d p.1 p.2) d₁ with hd
  set L := List.insertionSort msgRel (d.map Prod.snd) with hL
  obtain ⟨hlt, hids⟩ := sortedValues_of_wf d hwf
  rw [← hL] at hlt hids
  have hLnodup : (L.map idKey).Nodup := List.pairwise_map.mpr (hlt.imp fun h => ne_of_lt h)
  have hdL : buildMsgDict L [] = .ok (L.map (fun m => (idKey m, m))) := by
    have := buildMsgDict_eq_append L [] hids hLnodup (by simp [dKeys_nil])
    simpa using this
  have hkeysdL : dKeys (L.map (fun m => (idKey m, m))) = L.map idKey := by
    simp [dKeys, List.map_map]
  have hdLnodup : (dKeys (L.map (fun m => (idKey m, m)))).Nodup := by
    rw [hkeysdL]; exact hLnodup
  have hlook : ∀ p ∈ d₂, dLookup (L.map (fun m => (idKey m, m))) p.1 = some p.2 := by
    intro p hp
    have hlookd : dLookup d p.1 = some p.2 :=
      dLookup_foldl_dSet_self Prod.fst Prod.snd d₂ d₁ hwf₂.1 p hp
    have hmemd : (p.1, p.2) ∈ d := (mem_iff_dLookup hwf.1 p.1 p.2).mpr hlookd
    have hvmem : p.2 ∈ L := by
      rw [hL]
      exact (List.perm_insertionSort msgRel _).mem_iff.mpr
        (List.mem_map_of_mem Prod.snd hmemd)
    have hkey : idKey p.2 = p.1 := by
      have h2 : p.2.id = some p.1 := hwf.2 _ hmemd
      show p.2.id.getD 0 = p.1
      rw [h2]
      rfl
    have hmem : (p.1, p.2) ∈ L.map (fun m => (idKey m, m)) := by
      rw [← hkey]
      exact List.mem_map_of_mem (fun m => (idKey m, m)) hvmem
    exact (mem_iff_dLookup hdLnodup p.1 p.2).mp hmem
  unfold merge_messages
  rw [hdL, h₂]
  simp only [Bind.bind, Except.bind, Pure.pure, Except.pure, Except.ok.injEq]
  rw [foldl_dSet_no_op Prod.fst Prod.snd d₂ (L.map (fun m => (idKey m, m))) hlook]
  have hvals : (L.map (fun m => (idKey m, m))).map Prod.snd = L := by
    rw [List.map_map]
    exact List.map_id L
  have hsorted : List.Sorted msgRel L := hlt.imp fun h => le_of_lt h
  rw [hvals, hsorted.insertionSort_eq]

/-! ### Properties of the profile prefetch -/

theorem fetch_profiles_fields (api : Option Backend) (st : AppState) (msgs : List Msg) :
    (fetch_and_cache_profiles api st msgs).1.messages = st.messages ∧
    (fetch_and_cache_profiles api st msgs).1.chat = st.chat := by
  unfold fetch_and_cache_profiles
  match api with
  | none => exact ⟨rfl, rfl⟩
  | some be =>
    by_cases h : uncachedSenders st.profiles msgs = []
    · simp [h]
    · cases hr : be.get_contact_details (uncachedSenders st.profiles msgs) <;> simp [h, hr]

theorem fetch_profiles_calls_not_markRead (api : Option Backend) (st : AppState)
    (msgs : List Msg) :
    ∀ c ∈ (fetch_and_cache_profiles api st msgs).2, isMarkRead c = false := by
  unfold fetch_and_cache_profiles
  match api with
  | none => intro c hc; simp at hc
  | some be =>
    by_cases h : uncachedSenders st.profiles msgs = []
    · simp [h]
    · cases hr : be.get_contact_details (uncachedSenders st.profiles msgs) <;>
        simp [h, hr, isMarkRead]

/-! ### Properties of the duplicate scan -/

theorem anyIdEq_ok_true {md : Msg} {i : Int} (hmd : md.id = some i) :
    ∀ (log : List Msg), (∀ m ∈ log, m.id.isSome) →
    (∃ m ∈ log, m.id = some i) → anyIdEq md log = .ok true
  | [], _, hex => by simp at hex
  | m :: rest, hwf, hex => by
    match hm : m.id with
    | none => exact absurd (hm ▸ hwf m (List.mem_cons_self m rest)) (by simp)
    | some j =>
      rw [anyIdEq]
      simp only [getIdExc, hm, hmd, Bind.bind, Except.bind]
      by_cases hj : j = i
      · rw [if_pos hj]
        rfl
      · rw [if_neg hj]
        refine anyIdEq_ok_true hmd rest (fun m' hm' => hwf m' (List.mem_cons.mpr (Or.inr hm'))) ?_
        rcases hex with ⟨m', hm', hid⟩
        rcases List.mem_cons.mp hm' with rfl | hmem
        · exact absurd (by rw [hm] at hid; exact Option.some_inj.mp hid) hj
        · exact ⟨m', hmem, hid⟩

theorem anyIdEq_error_of_no_id {md : Msg} (hmd : md.id = none) (m₀ : Msg) (rest : List Msg) :
    anyIdEq md (m₀ :: rest) = .error "KeyError: id" := by
  rw [anyIdEq]
  match hm : m₀.id with
  | none => simp [getIdExc, hm, Bind.bind, Except.bind]
  | some j => simp [getIdExc, hm, hmd, Bind.bind, Except.bind]

/-! ### Claim C1 -/

/-- Claim C1 is false as stated: starting from an empty store, the push-event
merges of messages with ids 5, 10 and then 7 (all for chat 1) leave the chat's
log `[5, 10, 7]`, which is not sorted ascending by `id`. -/
theorem c1_counterexample :
    handle_event false {}
        { opcode := some 128, chatId := some 1, message := some { id := some 5 } } =
      .ok ({ messages := [("1", [{ id := some 5 }])] }, []) ∧
    handle_event false { messages := [("1", [{ id := some 5 }])] }
        { opcode := some 128, chatId := some 1, message := some { id := some 10 } } =
      .ok ({ messages := [("1", [{ id := some 5 }, { id := some 10 }])] }, []) ∧
    handle_event false { messages := [("1", [{ id := some 5 }, { id := some 10 }])] }
        { opcode := some 128, chatId := some 1, message := some { id := some 7 } } =
      .ok ({ messages := [("1", [{ id := some 5 }, { id := some 10 }, { id := some 7 }])] },
        []) ∧
    ¬ List.Pairwise msgLt [{ id := some 5 }, { id := some 10 }, ({ id := some 7 } : Msg)] :=
  ⟨by rfl, by rfl, by rfl, by decide⟩

/-- Claim C1 (amended): the navigation merge always produces a log strictly
ascending by `id` (hence with no duplicate `id`s) whose members all carry
their id, and re-merging the identical batch leaves that log unchanged; the
push-event append and the load-older prepend do not re-establish this
invariant in general. -/
theorem c1_amended_nav_merge (E B L : List Msg) (h : merge_messages E B = .ok L) :
    L.Pairwise msgLt ∧ (∀ m ∈ L, m.id = some (idKey m)) ∧ merge_messages L B = .ok L := by
  obtain ⟨d₁, d₂, h₁, h₂, hL⟩ := merge_messages_eq E B L h
  have hwf₁ : WfMsgDict d₁ := buildMsgDict_wf E [] d₁ ⟨List.nodup_nil, by simp⟩ h₁
  have hwf₂ : WfMsgDict d₂ := buildMsgDict_wf B [] d₂ ⟨List.nodup_nil, by simp⟩ h₂
  have hwf : WfMsgDict (d₂.foldl (fun d p => dSet d p.1 p.2) d₁) := overlay_wf hwf₁ hwf₂
  obtain ⟨hlt, hids⟩ := sortedValues_of_wf _ hwf
  rw [← hL] at hlt hids
  exact ⟨hlt, hids, merge_messages_idem E B L h⟩

/-- Witness for C1: merging batch `[7]` into log `[5, 10]` yields `[5, 7, 10]`,
which is strictly sorted, and merging `[7]` again returns it unchanged. -/
theorem c1_witness :
    merge_messages [{ id := some 5 }, { id := some 10 }] [{ id := some 7 }] =
      .ok [{ id := some 5 }, { id := some 7 }, { id := some 10 }] ∧
    ([{ id := some 5 }, { id := some 7 }, ({ id := some 10 } : Msg)].Pairwise msgLt ∧
      (∀ m ∈ [{ id := some 5 }, { id := some 7 }, ({ id := some 10 } : Msg)],
        m.id = some (idKey m)) ∧
      merge_messages [{ id := some 5 }, { id := some 7 }, { id := some 10 }] [{ id := some 7 }] =
        .ok [{ id := some 5 }, { id := some 7 }, { id := some 10 }]) :=
  ⟨by rfl, c1_amended_nav_merge [{ id := some 5 }, { id := some 10 }] [{ id := some 7 }]
    [{ id := some 5 }, { id := some 7 }, { id := some 10 }] (by rfl)⟩

/-! ### Claim C2 -/

/-- Claim C2 is false as stated: chat 7's log already holds a message with id
5, yet processing a push event re-delivering id 5 (with a UI attached) still
notifies the presentation layer — the notification list is `[7]`, not empty.
The log itself is unchanged. -/
theorem c2_counterexample :
    anyIdEq { id := some 5, extra := 1 }
        (dGetD ({ messages := [("7", [{ id := some 5 }])] } : AppState).messages "7" []) =
      .ok true ∧
    handle_event true { messages := [("7", [{ id := some 5 }])] }
        { opcode := some 128, chatId := some 7, message := some { id := some 5, extra := 1 } } =
      .ok ({ messages := [("7", [{ id := some 5 }])] }, [7]) :=
  ⟨by rfl, by rfl⟩

/-- Claim C2 (amended): a push event whose message id already exists in the
target chat's log leaves the whole state (in particular the log's length)
unchanged, but the `onNewMessage` notification is still emitted whenever a UI
is attached. -/
theorem c2_amended_redelivery (ui : Bool) (st : AppState) (c : Int) (md : Msg) (i : Int)
    (hc : c ≠ 0) (hmd : md.id = some i)
    (hwf : ∀ m ∈ dGetD st.messages (toString c) [], m.id.isSome)
    (hdup : ∃ m ∈ dGetD st.messages (toString c) [], m.id = some i) :
    handle_event ui st { opcode := some 128, chatId := some c, message := some md } =
      .ok (st, if ui then [c] else []) := by
  unfold handle_event
  simp only [if_pos rfl]
  rw [if_neg hc, anyIdEq_ok_true hmd _ hwf hdup]
  simp

/-- Witness for C2: re-delivering id 5 to chat 7 with a UI attached returns
the state unchanged and the notification `[7]`. -/
theorem c2_witness :
    handle_event true { messages := [("7", [{ id := some 5 }])] }
        { opcode := some 128, chatId := some 7, message := some { id := some 5, extra := 2 } } =
      .ok ({ messages := [("7", [{ id := some 5 }])] }, if true then [7] else []) :=
  c2_amended_redelivery true { messages := [("7", [{ id := some 5 }])] } 7
    { id := some 5, extra := 2 } 5 (by decide) (by rfl) (by decide)
    ⟨{ id := some 5 }, by decide, by rfl⟩

/-! ### Claim C3 -/

/-- Claim C3 is false as stated: navigating from active chat "1" to chat "2"
against a failing backend returns failure, but the session state is changed —
the active-chat pointer has already been moved to "2" before the fetch. -/
theorem c3_counterexample :
    nav_chat (some beFail) { chat := some "1" } "2" =
      (false, { chat := some "2" }, [Call.getHistory 2 50 none]) ∧
    ({ chat := some "2" } : AppState) ≠ { chat := some "1" } :=
  ⟨by rfl, by decide⟩

/-- Claim C3 (amended): when the backend history fetch fails, `navigateToChat`
returns failure and leaves the chat logs and the profile cache unchanged, but
the active-chat pointer has already been set to the requested chat. -/
theorem c3_amended_nav_failure (be : Backend) (st : AppState) (chat : String) (cid : Int)
    (e : String) (hc : pyInt? chat = some cid)
    (hh : be.get_history cid 50 none = .error e) :
    nav_chat (some be) st chat =
      (false, { st with chat := some chat }, [Call.getHistory cid 50 none]) := by
  unfold nav_chat
  simp only [hc, hh]

/-- Witness for C3: the failing-fetch navigation, instantiated at a concrete
state and backend. -/
theorem c3_witness :
    nav_chat (some beFail) { chat := some "1" } "2" =
      (false, { ({ chat := some "1" } : AppState) with chat := some "2" },
        [Call.getHistory 2 50 none]) :=
  c3_amended_nav_failure beFail { chat := some "1" } "2" 2 "TransportError" (by rfl) (by rfl)

/-! ### Claim C4 -/

/-- Claim C4 is false as stated: the log of chat 1 holds the message
`{id 5, time 100}`; the backend page is `[{id 5, time 50}]`, whose oldest time
differs from the anchor, so the code treats it as progress — but the page is
not deduplicated against the log: the new log holds id 5 twice. -/
theorem c4_counterexample :
    load_more_messages (some beOverlap)
        { chat := some "1", messages := [("1", [{ id := some 5, time := some 100 }])] } "1" =
      ([{ id := some 5, time := some 50 }],
        { chat := some "1",
          messages := [("1", [{ id := some 5, time := some 50 },
            { id := some 5, time := some 100 }])] },
        [Call.getHistory 1 50 (some 100)]) ∧
    ¬ (([{ id := some 5, time := some 50 },
        ({ id := some 5, time := some 100 } : Msg)]).map idKey).Nodup :=
  ⟨by rfl, by decide⟩

/-- Claim C4 (amended): when the fetched page makes progress (its oldest
`time` differs from the anchor), the page is prepended to the log verbatim —
no deduplication and no re-sort — and the returned value is exactly the
fetched page. -/
theorem c4_amended_load_older (be : Backend) (st : AppState) (chat : String) (cid : Int)
    (m₀ : Msg) (rest : List Msg) (p₀ : Msg) (ptail : List Msg)
    (hlog : dGetD st.messages chat [] = m₀ :: rest)
    (hc : pyInt? chat = some cid)
    (hh : be.get_history cid 50 m₀.time = .ok (p₀ :: ptail))
    (ht : p₀.time ≠ m₀.time) :
    load_more_messages (some be) st chat =
      (p₀ :: ptail,
        { (fetch_and_cache_profiles (some be) st (p₀ :: ptail)).1 with
          messages := dSet (fetch_and_cache_profiles (some be) st (p₀ :: ptail)).1.messages
            chat ((p₀ :: ptail) ++ (m₀ :: rest)) },
        Call.getHistory cid 50 m₀.time :: (fetch_and_cache_profiles (some be) st (p₀ :: ptail)).2) := by
  unfold load_more_messages
  simp only [hlog, hc, hh, if_neg ht]

/-- Witness for C4: prepending the strictly-older disjoint page `[{id 1,
time 50}]` to the log `[{id 5, time 100}]`. -/
theorem c4_witness :
    load_more_messages (some beOlderPage)
        { chat := some "1", messages := [("1", [{ id := some 5, time := some 100 }])] } "1" =
      ([{ id := some 1, time := some 50 }],
        { (fetch_and_cache_profiles (some beOlderPage)
            { chat := some "1", messages := [("1", [{ id := some 5, time := some 100 }])] }
            [{ id := some 1, time := some 50 }]).1 with
          messages := dSet (fetch_and_cache_profiles (some beOlderPage)
            { chat := some "1", messages := [("1", [{ id := some 5, time := some 100 }])] }
            [{ id := some 1, time := some 50 }]).1.messages
            "1" ([{ id := some 1, time := some 50 }] ++ [{ id := some 5, time := some 100 }]) },
        Call.getHistory 1 50 (some 100) :: (fetch_and_cache_profiles (some beOlderPage)
          { chat := some "1", messages := [("1", [{ id := some 5, time := some 100 }])] }
          [{ id := some 1, time := some 50 }]).2) :=
  c4_amended_load_older beOlderPage
    { chat := some "1", messages := [("1", [{ id := some 5, time := some 100 }])] } "1" 1
    { id := some 5, time := some 100 } [] { id := some 1, time := some 50 } []
    (by rfl) (by rfl) (by rfl) (by decide)

/-! ### Claim C5 -/

/-- Claim C5 is false as stated: the event handler has no exception wrapper.
A push event for chat 1 whose message object lacks `id` raises `KeyError` out
of the handler, because the duplicate scan evaluates `message_data['id']`
against the non-empty log. -/
theorem c5_counterexample :
    handle_event true { messages := [("1", [{ id := some 5 }])] }
        { opcode := some 128, chatId := some 1, message := some {} } =
      .error "KeyError: id" := by
  rfl

/-- Claim C5 (amended): an event lacking `chatId` (or carrying the falsy id 0)
or lacking a `message` object is dropped with no state change and no
notification; but a message object without an `id` field raises `KeyError` out
of the handler whenever the target chat's log is non-empty. -/
theorem c5_amended_handler :
    (∀ (ui : Bool) (st : AppState) (ev : Event),
      ev.opcode = some 128 →
      ev.chatId = none ∨ ev.chatId = some 0 ∨ ev.message = none →
      handle_event ui st ev = .ok (st, [])) ∧
    (∀ (ui : Bool) (st : AppState) (c : Int) (md : Msg) (m₀ : Msg) (rest : List Msg),
      c ≠ 0 → md.id = none → dGetD st.messages (toString c) [] = m₀ :: rest →
      handle_event ui st { opcode := some 128, chatId := some c, message := some md } =
        .error "KeyError: id") := by
  constructor
  · rintro ui st ⟨op, cid, msg⟩ hop hdrop
    simp only at hop hdrop
    subst hop
    rcases hdrop with rfl | rfl | rfl
    · rfl
    · cases msg <;> rfl
    · cases cid <;> rfl
  · intro ui st c md m₀ rest hc hmd hlog
    unfold handle_event
    simp only [if_pos rfl]
    rw [if_neg hc, hlog, anyIdEq_error_of_no_id hmd]
    simp

/-- Witness for C5: an event with no `message` is dropped, no state change;
a message without `id` pushed at a chat whose log holds `{id 5}` raises. -/
theorem c5_witness :
    handle_event true {} { opcode := some 128, chatId := some 1 } = .ok ({}, []) ∧
    handle_event false { messages := [("1", [{ id := some 5 }])] }
        { opcode := some 128, chatId := some 1, message := some {} } =
      .error "KeyError: id" :=
  ⟨c5_amended_handler.1 true {} { opcode := some 128, chatId := some 1 } (by rfl)
      (Or.inr (Or.inr (by rfl))),
    c5_amended_handler.2 false { messages := [("1", [{ id := some 5 }])] } 1 {}
      { id := some 5 } [] (by decide) (by rfl) (by rfl)⟩

/-- Filtering a call trace of the `nav_chat` shape for mark-as-read calls
leaves exactly the final mark-as-read call. -/
theorem filter_isMarkRead_trace (cid : Int) (mid : String) (c₁ : Call) (pc : List Call)
    (h₁ : isMarkRead c₁ = false) (hpc : ∀ c ∈ pc, isMarkRead c = false) :
    List.filter isMarkRead (c₁ :: pc ++ [Call.markRead cid mid]) = [Call.markRead cid mid] := by
  have hnil : List.filter isMarkRead pc = [] :=
    List.filter_eq_nil_iff.mpr (fun c hc => by simp [hpc c hc])
  have hone : List.filter isMarkRead [Call.markRead cid mid] = [Call.markRead cid mid] := rfl
  simp [List.filter_cons, h₁, List.filter_append, hnil, hone]

/-! ### Claim C6 -/

/-- Claim C6 is false as stated: the backend returns the non-empty page
`[{id 0}]`, navigation succeeds, yet no mark-as-read call is made, because
`if last_msg_id:` treats the id 0 as falsy. -/
theorem c6_counterexample :
    nav_chat (some beZeroId) {} "1" =
      (true, { chat := some "1", messages := [("1", [{ id := some 0 }])] },
        [Call.getHistory 1 50 none]) ∧
    [Call.getHistory 1 50 none].filter isMarkRead = [] :=
  ⟨by rfl, by rfl⟩

/-- Claim C6 (amended): on a successful navigation whose fetched page is
non-empty, mark-as-read is invoked exactly once, with the id of the last
(newest) fetched message — provided that id is present and non-zero (a falsy
id skips the call); the scenario for chat "42" with page `[10, 11, 12]` holds
as stated. -/
theorem c6_amended_mark_read (be : Backend) (st : AppState) (chat : String) (cid : Int)
    (page : List Msg) (last : Msg) (lid : Int) (L : List Msg)
    (hc : pyInt? chat = some cid)
    (hh : be.get_history cid 50 none = .ok page)
    (hmerge : merge_messages (dGetD st.messages chat []) page = .ok L)
    (hlast : page.getLast? = some last)
    (hid : last.id = some lid) (h0 : lid ≠ 0)
    (hmr : be.mark_as_read cid (toString lid) = .ok ()) :
    ∃ st' calls, nav_chat (some be) st chat = (true, st', calls) ∧
      calls.filter isMarkRead = [Call.markRead cid (toString lid)] ∧
      dGetD st'.messages chat [] = L := by
  have hfields := fetch_profiles_fields (some be) { st with chat := some chat } page
  have hnomr := fetch_profiles_calls_not_markRead (some be) { st with chat := some chat } page
  unfold nav_chat
  simp only [hc, hh, hfields.1, hmerge, hlast, hid, if_neg h0, hmr]
  refine ⟨_, _, rfl, ?_, ?_⟩
  · exact filter_isMarkRead_trace cid (toString lid) _ _ (by rfl) hnomr
  · unfold dGetD
    rw [dLookup_dSet, if_pos rfl]
    rfl

/-- Witness for C6: the spec scenario — empty cache, `fetchHistory` returns
`[10, 11, 12]` for chat "42"; navigation succeeds, the log becomes
`[10, 11, 12]`, and mark-as-read is called exactly once with id 12. -/
theorem c6_witness :
    (∃ st' calls, nav_chat (some beScenario) {} "42" = (true, st', calls) ∧
      calls.filter isMarkRead = [Call.markRead 42 (toString (12 : Int))] ∧
      dGetD st'.messages "42" [] = scenarioPage) ∧
    nav_chat (some beScenario) {} "42" =
      (true, { chat := some "42", messages := [("42", scenarioPage)] },
        [Call.getHistory 42 50 none, Call.markRead 42 "12"]) :=
  ⟨c6_amended_mark_read beScenario {} "42" 42 scenarioPage { id := some 12 } 12 scenarioPage
      (by rfl) (by rfl) (by rfl) (by rfl) (by rfl) (by decide) (by rfl),
    by rfl⟩

/-! ### Claim C7 -/

/-- Claim C7 (confirmed): when the fetched page's oldest `time` equals the
anchor (the first held message's `time`), `loadOlder` returns empty and the
state is unchanged. -/
theorem c7_load_older_exhausted (be : Backend) (st : AppState) (chat : String) (cid : Int)
    (m₀ : Msg) (rest : List Msg) (p₀ : Msg) (ptail : List Msg)
    (hlog : dGetD st.messages chat [] = m₀ :: rest)
    (hc : pyInt? chat = some cid)
    (hh : be.get_history cid 50 m₀.time = .ok (p₀ :: ptail))
    (ht : p₀.time = m₀.time) :
    load_more_messages (some be) st chat = ([], st, [Call.getHistory cid 50 m₀.time]) := by
  unfold load_more_messages
  simp only [hlog, hc, hh, if_pos ht]

/-- Witness for C7: log `[20, 21, 22]` with oldest time 1000; the next page's
oldest time is also 1000; the call returns empty and the log stays intact. -/
theorem c7_witness :
    load_more_messages (some beAnchor)
        { chat := some "1", messages := [("1", [{ id := some 20, time := some 1000 },
          { id := some 21, time := some 1001 }, { id := some 22, time := some 1002 }])] } "1" =
      ([], { chat := some "1", messages := [("1", [{ id := some 20, time := some 1000 },
          { id := some 21, time := some 1001 }, { id := some 22, time := some 1002 }])] },
        [Call.getHistory 1 50 (some 1000)]) :=
  c7_load_older_exhausted beAnchor
    { chat := some "1", messages := [("1", [{ id := some 20, time := some 1000 },
      { id := some 21, time := some 1001 }, { id := some 22, time := some 1002 }])] } "1" 1
    { id := some 20, time := some 1000 }
    [{ id := some 21, time := some 1001 }, { id := some 22, time := some 1002 }]
    { id := some 19, time := some 1000 } [] (by rfl) (by rfl) (by rfl) (by rfl)

/-! ### Claim C8 -/

/-- Claim C8 (confirmed): the id set sent to the backend is exactly the set of
distinct sender ids of the input messages that are not yet cached; when that
set is empty no backend call is made; otherwise exactly one batched lookup is
issued, and (when the returned ids are distinct) every returned profile ends
up in the cache keyed by its id. -/
theorem c8_prefetch_profiles (be : Backend) (st : AppState) (msgs : List Msg) :
    (∀ s : Int, s ∈ uncachedSenders st.profiles msgs ↔
      ((∃ m ∈ msgs, m.sender = some s) ∧ dLookup st.profiles (toString s) = none)) ∧
    (uncachedSenders st.profiles msgs).Nodup ∧
    (uncachedSenders st.profiles msgs = [] →
      fetch_and_cache_profiles (some be) st msgs = (st, [])) ∧
    (∀ ps : List Profile, uncachedSenders st.profiles msgs ≠ [] →
      be.get_contact_details (uncachedSenders st.profiles msgs) = .ok ps →
      (fetch_and_cache_profiles (some be) st msgs).2 =
        [Call.getContacts (uncachedSenders st.profiles msgs)] ∧
      ((ps.map profileKey).Nodup → ∀ p ∈ ps,
        dLookup (fetch_and_cache_profiles (some be) st msgs).1.profiles (profileKey p) =
          some p)) := by
  refine ⟨?_, ?_, ?_, ?_⟩
  · intro s
    unfold uncachedSenders
    rw [List.mem_dedup, List.mem_filter, List.mem_filterMap]
    simp
  · exact List.nodup_dedup _
  · intro h
    unfold fetch_and_cache_profiles
    simp [h]
  · intro ps hne hok
    have hpair : fetch_and_cache_profiles (some be) st msgs =
        ({ st with profiles := ps.foldl (fun d p => dSet d (profileKey p) p) st.profiles },
          [Call.getContacts (uncachedSenders st.profiles msgs)]) := by
      unfold fetch_and_cache_profiles
      simp only [if_neg hne, hok]
    rw [hpair]
    refine ⟨rfl, fun hnd p hp => ?_⟩
    exact dLookup_foldl_dSet_self profileKey (fun p => p) ps st.profiles hnd p hp

/-- Witness for C8: senders {1, 2} with 1 cached and 2 not — the single batch
lookup carries exactly `[2]`, and the returned profile is cached under "2". -/
theorem c8_witness :
    (2 ∈ uncachedSenders [("1", { id := some 1 })]
        [{ sender := some 1 }, { sender := some 2 }] ↔
      ((∃ m ∈ [({ sender := some 1 } : Msg), { sender := some 2 }], m.sender = some 2) ∧
        dLookup [("1", ({ id := some 1 } : Profile))] (toString (2 : Int)) = none)) ∧
    (fetch_and_cache_profiles (some beContacts)
        { profiles := [("1", { id := some 1 })] }
        [{ sender := some 1 }, { sender := some 2 }]).2 =
      [Call.getContacts (uncachedSenders
        ({ profiles := [("1", { id := some 1 })] } : AppState).profiles
        [{ sender := some 1 }, { sender := some 2 }])] ∧
    dLookup (fetch_and_cache_profiles (some beContacts)
        { profiles := [("1", { id := some 1 })] }
        [{ sender := some 1 }, { sender := some 2 }]).1.profiles
      (profileKey { id := some 2 }) = some { id := some 2 } := by
  have h := c8_prefetch_profiles beContacts
    { profiles := [("1", { id := some 1 })] }
    [{ sender := some 1 }, { sender := some 2 }]
  have h4 := h.2.2.2 [{ id := some 2 }] (by decide) (by rfl)
  exact ⟨h.1 2, h4.1, h4.2 (by decide) { id := some 2 } (by decide)⟩

/-! ### Claim C9 -/

/-- Claim C9 (confirmed): attachment retrieval is total — an unknown or
missing descriptor variant, a missing PHOTO url, any failing download, or
empty downloaded content all yield `none`; and when a FILE download returns
non-empty bytes, the payload's mime type is derived from the returned
filename's extension, with `application/octet-stream` as the fallback. -/
theorem c9_attachment (be : Backend) (chat mid : String) (info : AttachInfo) :
    (info.variantType ≠ some "PHOTO" → info.variantType ≠ some "VIDEO" →
      info.variantType ≠ some "FILE" →
      get_attachment_data_uri (some be) chat mid info = (none, [])) ∧
    (info.variantType = some "PHOTO" → info.baseUrl = none →
      get_attachment_data_uri (some be) chat mid info = (none, [])) ∧
    (∀ u e, info.variantType = some "PHOTO" → info.baseUrl = some u →
      be.http_get u = .error e →
      get_attachment_data_uri (some be) chat mid info = (none, [Call.httpGet u])) ∧
    (∀ e, info.variantType = some "VIDEO" → be.get_video info.videoId = .error e →
      get_attachment_data_uri (some be) chat mid info =
        (none, [Call.getVideo info.videoId])) ∧
    (∀ e, info.variantType = some "FILE" →
      be.get_file info.fileId chat mid = .error e →
      get_attachment_data_uri (some be) chat mid info =
        (none, [Call.getFile info.fileId chat mid])) ∧
    (∀ fname, info.variantType = some "FILE" →
      be.get_file info.fileId chat mid = .ok ([], fname) →
      get_attachment_data_uri (some be) chat mid info =
        (none, [Call.getFile info.fileId chat mid])) ∧
    (∀ content fname, info.variantType = some "FILE" →
      be.get_file info.fileId chat mid = .ok (content, fname) → content ≠ [] →
      get_attachment_data_uri (some be) chat mid info =
        (some { data_uri := "data:" ++ ((guess_type fname).getD "application/octet-stream") ++
            ";base64," ++ base64Encode content, filename := fname },
          [Call.getFile info.fileId chat mid])) := by
  refine ⟨?_, ?_, ?_, ?_, ?_, ?_, ?_⟩
  · intro h1 h2 h3
    cases hv : info.variantType with
    | none =>
      unfold get_attachment_data_uri
      simp only [hv]
    | some t =>
      rw [hv] at h1 h2 h3
      unfold get_attachment_data_uri
      simp only [hv]
  · intro hv hb
    unfold get_attachment_data_uri
    simp only [hv, hb]
  · intro u e hv hb hf
    unfold get_attachment_data_uri
    simp only [hv, hb, hf]
  · intro e hv hf
    unfold get_attachment_data_uri
    simp only [hv, hf]
  · intro e hv hf
    unfold get_attachment_data_uri
    simp only [hv, hf]
  · intro fname hv hf
    unfold get_attachment_data_uri
    simp only [hv, hf]
    rfl
  · intro content fname hv hf hne
    unfold get_attachment_data_uri
    simp only [hv, hf]
    unfold finishAttachment
    rw [if_neg hne]

/-- Witness for C9: the spec scenario — descriptor `{type: FILE, fileId:
"abc"}` resolves to the bytes of `%PDF` with filename `report.pdf`; the
payload's mime type is `application/pdf`, derived from the `.pdf` extension. -/
theorem c9_witness :
    get_attachment_data_uri (some beFilePdf) "c" "m"
        { variantType := some "FILE", fileId := some "abc" } =
      (some { data_uri := "data:" ++
          ((guess_type "report.pdf").getD "application/octet-stream") ++ ";base64," ++
          base64Encode [37, 80, 68, 70], filename := "report.pdf" },
        [Call.getFile (some "abc") "c" "m"]) ∧
    (guess_type "report.pdf").getD "application/octet-stream" = "application/pdf" :=
  ⟨(c9_attachment beFilePdf "c" "m"
      { variantType := some "FILE", fileId := some "abc" }).2.2.2.2.2.2
      [37, 80, 68, 70] "report.pdf" (by rfl) (by rfl) (by decide),
    by rfl⟩

/-! ### Claim C10 -/

/-- Claim C10 (confirmed): `send` returns absence and leaves the state
untouched when no chat is active (or the active chat is the falsy empty
string, or there is no API, or the backend call fails or echoes no message);
when the backend echoes a message it is appended verbatim at the end of the
active chat's log — no deduplication against an existing copy of the same id
and no re-sort — and returned. -/
theorem c10_send (be : Backend) (st : AppState) (text : String) :
    (st.chat = none → send (some be) st text = (none, st, [])) ∧
    (st.chat = some "" → send (some be) st text = (none, st, [])) ∧
    (send none st text = (none, st, [])) ∧
    (∀ c cid e, st.chat = some c → c ≠ "" → pyInt? c = some cid →
      be.send_message cid text = .error e →
      send (some be) st text = (none, st, [Call.sendMessage cid text])) ∧
    (∀ c cid, st.chat = some c → c ≠ "" → pyInt? c = some cid →
      be.send_message cid text = .ok none →
      send (some be) st text = (none, st, [Call.sendMessage cid text])) ∧
    (∀ c cid m, st.chat = some c → c ≠ "" → pyInt? c = some cid →
      be.send_message cid text = .ok (some m) →
      send (some be) st text = (some m,
        { st with messages := dSet st.messages c ((dGetD st.messages c []) ++ [m]) },
        [Call.sendMessage cid text])) := by
  refine ⟨?_, ?_, ?_, ?_, ?_, ?_⟩
  · intro h
    unfold send
    simp only [h]
  · intro h
    unfold send
    simp [h]
  · unfold send
    cases hcc : st.chat with
    | none => rfl
    | some c =>
      by_cases hc : c = ""
      · simp [hc]
      · simp only [if_neg hc]
  · intro c cid e hch hc hcid hsend
    unfold send
    simp only [hch, if_neg hc, hcid, hsend]
  · intro c cid hch hc hcid hsend
    unfold send
    simp only [hch, if_neg hc, hcid, hsend]
  · intro c cid m hch hc hcid hsend
    unfold send
    simp only [hch, if_neg hc, hcid, hsend]

/-- Witness for C10: the backend echo `{id 5, extra 2}` is appended at the end
of chat 3's log even though a message with id 5 is already present — no
deduplication, no re-sort. -/
theorem c10_witness :
    send (some beEcho) { chat := some "3", messages := [("3", [{ id := some 5 }])] } "hi" =
      (some { id := some 5, extra := 2 },
        { chat := some "3",
          messages := [("3", [{ id := some 5 }, { id := some 5, extra := 2 }])] },
        [Call.sendMessage 3 "hi"]) :=
  (c10_send beEcho { chat := some "3", messages := [("3", [{ id := some 5 }])] } "hi").2.2.2.2.2
    "3" 3 { id := some 5, extra := 2 } (by rfl) (by decide) (by rfl) (by rfl)

end MaxClient
